import Mathlib

/-!
Verification development for the `radio_tipe_poc` repository (LoRa link-layer
protocol stack).  The definitions below are a shallow embedding of the Rust
sources:

* `src/radio-tipe-poc/src/device/frame.rs` — the wire-frame codec,
* `src/radio-tipe-poc/src/radio.rs` — the radio driver (transmit slot loop,
  pending-acknowledgment drain of `check_reception`, `queue`, nonce building),
* `src/radio-tipe-poc/src/atpc.rs` — the adaptive transmission power control.

Machine integers are modelled as `Nat` (or `Int` for the signed `i8`/`i16`
fields) with explicit bounds or `% 2^w` where the source can overflow.
Fallible Rust code returns `Result`; a Rust panic (an out-of-bounds index, an
integer division by zero) is modelled by a dedicated `crash` constructor, so
that the theorems can distinguish a returned error from an abort.
-/

namespace RadioTipe

/-! ### Byte-level primitives

Big-endian encodings as used by `u16::to_be_bytes`, `u64::to_be_bytes` and
`i16::to_be_bytes` in `frame.rs`.  A byte is a `Nat` below 256.
-/

/-- Big-endian bytes of a `u16` value (`u16::to_be_bytes`). -/
def be16 (v : Nat) : List Nat := [v / 256 % 256, v % 256]

/-- Big-endian bytes of a `u64` value (`u64::to_be_bytes`). -/
def be64 (v : Nat) : List Nat :=
  [v / 2 ^ 56 % 256, v / 2 ^ 48 % 256, v / 2 ^ 40 % 256, v / 2 ^ 32 % 256,
   v / 2 ^ 24 % 256, v / 2 ^ 16 % 256, v / 2 ^ 8 % 256, v % 256]

/-- Big-endian bytes of an `i16` value (two's complement, `i16::to_be_bytes`). -/
def i16ToBytes (d : Int) : List Nat := be16 (d % 65536).toNat

/-- Read one byte: models `bytes[i]` on a slice whose bound has already been
checked by the source (so the default is never reached in a verified path). -/
def rdU8 (bytes : List Nat) (i : Nat) : Nat := bytes.getD i 0

/-- Read a big-endian `u16` at offset `i` (`u16::from_be_bytes` of a 2-slice). -/
def rdBe16 (bytes : List Nat) (i : Nat) : Nat :=
  rdU8 bytes i * 256 + rdU8 bytes (i + 1)

/-- Read a big-endian `u64` at offset `i` (`u64::from_be_bytes` of an 8-slice). -/
def rdBe64 (bytes : List Nat) (i : Nat) : Nat :=
  rdU8 bytes i * 2 ^ 56 + rdU8 bytes (i + 1) * 2 ^ 48 + rdU8 bytes (i + 2) * 2 ^ 40 +
    rdU8 bytes (i + 3) * 2 ^ 32 + rdU8 bytes (i + 4) * 2 ^ 24 + rdU8 bytes (i + 5) * 2 ^ 16 +
    rdU8 bytes (i + 6) * 2 ^ 8 + rdU8 bytes (i + 7)

/-- Read a big-endian `i16` at offset `i` (`i16::from_be_bytes` of a 2-slice). -/
def rdI16 (bytes : List Nat) (i : Nat) : Int :=
  let u := rdBe16 bytes i
  if u < 32768 then (u : Int) else (u : Int) - 65536

/-! ### Frame data model (`frame.rs`)

`AddressHeader`, `PayloadFlag` and `InfoHeader` are raw `u16`/`u16`/`u8`
wrappers in the source; they are carried here as plain `Nat` fields.  A
payload is a byte list.
-/

/-- The `RecipientHeader` enum of `frame.rs`: one `Direct` address, or a
`Group` of (address, payload-flag) pairs. -/
inductive RecipientHeader where
  | direct (addr : Nat)
  | group (addrs : List (Nat × Nat))
deriving DecidableEq, Repr

/-- The `RadioHeaders` struct of `frame.rs`. -/
structure RadioHeaders where
  recNFrames : Nat
  recipients : RecipientHeader
  payloads : Nat
  sender : Nat
  nonce : Nat
deriving DecidableEq, Repr

/-- The `RadioFrameWithHeaders` struct of `frame.rs`: headers, the
acknowledgement block (address, nonce, delta-RSSI) and the payload list. -/
structure RadioFrameWithHeaders where
  headers : RadioHeaders
  acknowledgements : List (Nat × Nat × Int)
  payloads : List (List Nat)
deriving DecidableEq, Repr

/-- Result of a decoding function: a value, a `FrameError::InvalidHeader`
(the only error the decoders of `frame.rs` build — the formatted context
string is not carried), or a Rust panic (`crash`). -/
inductive DResult (α : Type) where
  | ok (val : α)
  | err
  | crash
deriving DecidableEq, Repr

/-! ### Encoders (`to_bytes` in `frame.rs`) -/

/-- Byte encoding of the group entries, in order: for each pair, the 2-byte
address then the 2-byte payload flag (`RecipientHeader::to_bytes`, Group arm). -/
def encPairs : List (Nat × Nat) → List Nat
  | [] => []
  | (a, pf) :: rest => be16 a ++ be16 pf ++ encPairs rest

/-- The `RecipientHeader::to_bytes` function: a count byte, then the direct
address or the group entries.  The count is `addrs.len() as u8`. -/
def RecipientHeader.toBytes : RecipientHeader → List Nat
  | .direct a => 1 :: be16 a
  | .group addrs => (addrs.length % 256) :: encPairs addrs

/-- The `RadioHeaders::to_bytes` function: info byte, recipient header,
sender address, payload count, nonce. -/
def RadioHeaders.toBytes (h : RadioHeaders) : List Nat :=
  (h.recNFrames % 256) :: (h.recipients.toBytes ++ be16 h.sender ++
    [h.payloads % 256] ++ be64 h.nonce)

/-- Byte encoding of the acknowledgement block entries, in order: 2-byte
address, 8-byte nonce, 2-byte delta-RSSI each. -/
def encAcks : List (Nat × Nat × Int) → List Nat
  | [] => []
  | (a, n, d) :: rest => be16 a ++ be64 n ++ i16ToBytes d ++ encAcks rest

/-- Byte encoding of the payload list: for each payload a 2-byte length
(`pl.len() as u16`) followed by the payload bytes. -/
def encPayloads : List (List Nat) → List Nat
  | [] => []
  | pl :: rest => be16 (pl.length % 65536) ++ pl ++ encPayloads rest

/-- The `RadioFrameWithHeaders::to_bytes` function: headers, acknowledgement
count (`acknowledgements.len() as u8`), acknowledgement entries, payloads.
Its `assert!` that the payload-count header equals the payload list length is
a hypothesis of every theorem using this encoder on arbitrary frames. -/
def RadioFrameWithHeaders.toBytes (f : RadioFrameWithHeaders) : List Nat :=
  f.headers.toBytes ++ [f.acknowledgements.length % 256] ++
    encAcks f.acknowledgements ++ encPayloads f.payloads

/-! ### Decoders (`try_from_bytes` in `frame.rs`) -/

/-- Group entries read by the `for i in 0..nrec` loop of
`RecipientHeader::try_from_bytes`: entry `i` is read at offsets `1 + 4 i` and
`3 + 4 i`; the recursion below walks the same offsets with `pos = 1 + 4 i`.
Bounds were checked by the caller before this loop runs. -/
def readGroupEntries (bytes : List Nat) (pos : Nat) : Nat → List (Nat × Nat)
  | 0 => []
  | k + 1 => (rdBe16 bytes pos, rdBe16 bytes (pos + 2)) :: readGroupEntries bytes (pos + 4) k

/-- The `RecipientHeader::try_from_bytes` function.  Returns the header and
the number of bytes consumed; `5 + (bytes[0] - 1) * 4` is the source's own
expression for the Group arm. -/
def RecipientHeader.tryFromBytes (bytes : List Nat) : DResult (RecipientHeader × Nat) :=
  if bytes.length < 1 then .err
  else
    let nrec := rdU8 bytes 0
    if nrec = 0 then .err
    else if nrec = 1 then
      if bytes.length < 3 then .err
      else .ok (.direct (rdBe16 bytes 1), 3)
    else if nrec ≤ 16 then
      if bytes.length < 1 + 4 * nrec then .err
      else .ok (.group (readGroupEntries bytes 1 nrec), 5 + (rdU8 bytes 0 - 1) * 4)
    else .err

/-- The `RadioHeaders::try_from_bytes` function.  The recipient header is
parsed from `bytes[1..]`, so the returned `read` is relative to that slice
and the later absolute offsets are `read + 1`, `read + 3`, `read + 4`. -/
def RadioHeaders.tryFromBytes (bytes : List Nat) : DResult (RadioHeaders × Nat) :=
  if bytes.length < 1 then .err
  else
    match RecipientHeader.tryFromBytes (bytes.drop 1) with
    | .err => .err
    | .crash => .crash
    | .ok (recip, read) =>
      if bytes.length < read + 3 then .err
      else
        let sender := rdBe16 bytes (read + 1)
        if bytes.length < read + 4 then .err
        else
          let pls := rdU8 bytes (read + 3)
          if bytes.length < read + 4 + 8 then .err
          else
            .ok ({ recNFrames := rdU8 bytes 0, recipients := recip, payloads := pls,
                   sender := sender, nonce := rdBe64 bytes (read + 4) }, read + 12)

/-- The acknowledgement-reading loop of `RadioFrameWithHeaders::try_from_bytes`.
The source checks `bytes.len() < cursor + 2 + FRAME_NONCE_SIZE` (ten bytes)
but then also reads the two delta-RSSI bytes at `cursor + 10` and
`cursor + 11`; an input of ten or eleven remaining bytes therefore panics
(out-of-bounds slice), modelled by `crash`. -/
def readAcks (bytes : List Nat) (cursor : Nat) : Nat → DResult (List (Nat × Nat × Int) × Nat)
  | 0 => .ok ([], cursor)
  | k + 1 =>
    if bytes.length < cursor + 10 then .err
    else if bytes.length < cursor + 12 then .crash
    else
      match readAcks bytes (cursor + 12) k with
      | .ok (rest, c) =>
        .ok ((rdBe16 bytes cursor, rdBe64 bytes (cursor + 2), rdI16 bytes (cursor + 10)) :: rest, c)
      | .err => .err
      | .crash => .crash

/-- The payload-reading loop of `RadioFrameWithHeaders::try_from_bytes`.
The source checks `bytes.len() < cursor` before reading the two length bytes
at `cursor` and `cursor + 1` (panic if fewer than `cursor + 2` bytes), and
checks `bytes.len() < cursor + len` before slicing
`bytes[cursor + 2 .. cursor + 2 + len]` (panic if fewer than
`cursor + 2 + len` bytes). -/
def readPayloads (bytes : List Nat) (cursor : Nat) : Nat → DResult (List (List Nat) × Nat)
  | 0 => .ok ([], cursor)
  | k + 1 =>
    if bytes.length < cursor then .err
    else if bytes.length < cursor + 2 then .crash
    else
      let len := rdBe16 bytes cursor
      if bytes.length < cursor + len then .err
      else if bytes.length < cursor + 2 + len then .crash
      else
        match readPayloads bytes (cursor + 2 + len) k with
        | .ok (rest, c) => .ok (((bytes.drop (cursor + 2)).take len) :: rest, c)
        | .err => .err
        | .crash => .crash

/-- The `RadioFrameWithHeaders::try_from_bytes` function.  The source reads
the acknowledgement count with `bytes[cursor]` without any bounds check, so
an input that ends right after the headers panics (`crash`). -/
def RadioFrameWithHeaders.tryFromBytes (bytes : List Nat) :
    DResult (RadioFrameWithHeaders × Nat) :=
  match RadioHeaders.tryFromBytes bytes with
  | .err => .err
  | .crash => .crash
  | .ok (headers, read) =>
    if bytes.length ≤ read then .crash
    else
      let ackSize := rdU8 bytes read
      match readAcks bytes (read + 1) ackSize with
      | .err => .err
      | .crash => .crash
      | .ok (acks, c1) =>
        match readPayloads bytes c1 headers.payloads with
        | .err => .err
        | .crash => .crash
        | .ok (pls, c2) =>
          .ok ({ headers := headers, acknowledgements := acks, payloads := pls }, c2)

/-! ### Validity of a frame

These bounds restate the Rust field types (`u8`, `u16`, `u64`, `i16`) plus
the structural conditions of the round-trip claim: payload-count header
equal to the payload list length, a Direct recipient or a Group of 2 to 16,
at most 16 acknowledgements, at most 16 payloads, each payload shorter than
`2 ^ 16` bytes.
-/

/-- Validity of a recipient header: `u16` fields, and a Group has 2 to 16
entries. -/
def RecipientHeader.Valid : RecipientHeader → Prop
  | .direct a => a < 65536
  | .group l => 2 ≤ l.length ∧ l.length ≤ 16 ∧ ∀ p ∈ l, p.1 < 65536 ∧ p.2 < 65536

instance : DecidablePred RecipientHeader.Valid := by
  intro r; cases r <;> simp only [RecipientHeader.Valid] <;> infer_instance

/-- Validity of radio headers: `u8`/`u16`/`u64` field bounds and a valid
recipient header. -/
def RadioHeaders.Valid (h : RadioHeaders) : Prop :=
  h.recNFrames < 256 ∧ h.payloads < 256 ∧ h.sender < 65536 ∧ h.nonce < 2 ^ 64 ∧
    h.recipients.Valid

instance (h : RadioHeaders) : Decidable h.Valid := by
  unfold RadioHeaders.Valid; infer_instance

/-- Validity of one acknowledgement entry: `u16` address, `u64` nonce,
`i16` delta-RSSI. -/
def AckValid (a : Nat × Nat × Int) : Prop :=
  a.1 < 65536 ∧ a.2.1 < 2 ^ 64 ∧ -32768 ≤ a.2.2 ∧ a.2.2 < 32768

instance : DecidablePred AckValid := by
  intro a; unfold AckValid; infer_instance

/-- Validity of a whole frame, as in the round-trip claim. -/
def RadioFrameWithHeaders.Valid (f : RadioFrameWithHeaders) : Prop :=
  f.headers.Valid ∧ f.headers.payloads = f.payloads.length ∧
    f.acknowledgements.length ≤ 16 ∧ (∀ a ∈ f.acknowledgements, AckValid a) ∧
    f.payloads.length ≤ 16 ∧ ∀ pl ∈ f.payloads, pl.length < 65536 ∧ ∀ b ∈ pl, b < 256

instance (f : RadioFrameWithHeaders) : Decidable f.Valid := by
  unfold RadioFrameWithHeaders.Valid; infer_instance

/-! ### Round-trip lemmas for the codec

The decoders work with absolute offsets into one byte list, so the lemmas
below relate a read at offset `pre.length + i` of `pre ++ l` to a read at
offset `i` of `l`.
-/

theorem rdU8_shift (pre l : List Nat) (i : Nat) :
    rdU8 (pre ++ l) (pre.length + i) = rdU8 l i := by
  simp only [rdU8, List.getD]
  rw [List.get?_eq_getElem?, List.get?_eq_getElem?, List.getElem?_append_right (by omega)]
  congr 2
  omega

theorem rdU8_at_len (pre l : List Nat) : rdU8 (pre ++ l) pre.length = rdU8 l 0 := by
  simpa using rdU8_shift pre l 0

theorem rdBe16_shift (pre l : List Nat) (i : Nat) :
    rdBe16 (pre ++ l) (pre.length + i) = rdBe16 l i := by
  simp only [rdBe16, Nat.add_assoc, rdU8_shift]

theorem rdBe16_at_len (pre l : List Nat) : rdBe16 (pre ++ l) pre.length = rdBe16 l 0 := by
  simpa using rdBe16_shift pre l 0

theorem rdBe64_shift (pre l : List Nat) (i : Nat) :
    rdBe64 (pre ++ l) (pre.length + i) = rdBe64 l i := by
  simp only [rdBe64, Nat.add_assoc, rdU8_shift]

theorem rdBe64_at_len (pre l : List Nat) : rdBe64 (pre ++ l) pre.length = rdBe64 l 0 := by
  simpa using rdBe64_shift pre l 0

theorem rdI16_shift (pre l : List Nat) (i : Nat) :
    rdI16 (pre ++ l) (pre.length + i) = rdI16 l i := by
  simp only [rdI16, rdBe16_shift]

theorem rdI16_at_len (pre l : List Nat) : rdI16 (pre ++ l) pre.length = rdI16 l 0 := by
  simpa using rdI16_shift pre l 0

theorem rdBe16_be16 (v : Nat) (hv : v < 65536) (rest : List Nat) :
    rdBe16 (be16 v ++ rest) 0 = v := by
  simp [rdBe16, rdU8, be16]
  omega

theorem rdBe64_be64 (v : Nat) (hv : v < 2 ^ 64) (rest : List Nat) :
    rdBe64 (be64 v ++ rest) 0 = v := by
  simp [rdBe64, rdU8, be64]
  omega

theorem rdI16_i16 (d : Int) (h1 : -32768 ≤ d) (h2 : d < 32768) (rest : List Nat) :
    rdI16 (i16ToBytes d ++ rest) 0 = d := by
  have hlt : (d % 65536).toNat < 65536 := by omega
  simp only [rdI16, i16ToBytes, rdBe16_be16 _ hlt]
  split <;> omega

theorem be16_length (v : Nat) : (be16 v).length = 2 := rfl

theorem be64_length (v : Nat) : (be64 v).length = 8 := rfl

theorem i16ToBytes_length (d : Int) : (i16ToBytes d).length = 2 := rfl

theorem encPairs_length (l : List (Nat × Nat)) : (encPairs l).length = 4 * l.length := by
  induction l with
  | nil => rfl
  | cons hd tl ih =>
    obtain ⟨a, pf⟩ := hd
    simp [encPairs, be16, ih]
    omega

theorem readGroupEntries_encPairs (l : List (Nat × Nat)) :
    ∀ pre post : List Nat, (∀ p ∈ l, p.1 < 65536 ∧ p.2 < 65536) →
      readGroupEntries (pre ++ (encPairs l ++ post)) pre.length l.length = l := by
  induction l with
  | nil => intro pre post _; rfl
  | cons hd tl ih =>
    intro pre post hv
    obtain ⟨a, pf⟩ := hd
    obtain ⟨⟨ha, hpf⟩, hv2⟩ : (a < 65536 ∧ pf < 65536) ∧ ∀ p ∈ tl, p.1 < 65536 ∧ p.2 < 65536 := by
      constructor
      · exact hv (a, pf) (List.mem_cons_self _ _)
      · exact fun p hp => hv p (List.mem_cons_of_mem _ hp)
    have h0 : rdBe16 (pre ++ (encPairs ((a, pf) :: tl) ++ post)) pre.length = a := by
      have e : pre ++ (encPairs ((a, pf) :: tl) ++ post) =
          pre ++ (be16 a ++ (be16 pf ++ (encPairs tl ++ post))) := by
        simp [encPairs, List.append_assoc]
      rw [e, rdBe16_at_len, rdBe16_be16 a ha]
    have h2 : rdBe16 (pre ++ (encPairs ((a, pf) :: tl) ++ post)) (pre.length + 2) = pf := by
      have e : pre ++ (encPairs ((a, pf) :: tl) ++ post) =
          (pre ++ be16 a) ++ (be16 pf ++ (encPairs tl ++ post)) := by
        simp [encPairs, List.append_assoc]
      have elen : pre.length + 2 = (pre ++ be16 a).length := by simp [be16_length]
      rw [e, elen, rdBe16_at_len, rdBe16_be16 pf hpf]
    have h4 : readGroupEntries (pre ++ (encPairs ((a, pf) :: tl) ++ post)) (pre.length + 4)
        tl.length = tl := by
      have e : pre ++ (encPairs ((a, pf) :: tl) ++ post) =
          (pre ++ be16 a ++ be16 pf) ++ (encPairs tl ++ post) := by
        simp [encPairs, List.append_assoc]
      have elen : pre.length + 4 = (pre ++ be16 a ++ be16 pf).length := by
        simp [be16_length]
      rw [e, elen, ih _ post hv2]
    show (rdBe16 _ pre.length, rdBe16 _ (pre.length + 2)) ::
        readGroupEntries _ (pre.length + 4) tl.length = (a, pf) :: tl
    rw [h0, h2, h4]

theorem recipientToBytes_length (r : RecipientHeader) :
    r.toBytes.length = match r with
      | .direct _ => 3
      | .group l => 1 + 4 * l.length := by
  cases r with
  | direct a => rfl
  | group l =>
    simp [RecipientHeader.toBytes, encPairs_length]
    omega

theorem recipient_tryFromBytes_toBytes (r : RecipientHeader) (hv : r.Valid)
    (rest : List Nat) :
    RecipientHeader.tryFromBytes (r.toBytes ++ rest) = .ok (r, r.toBytes.length) := by
  cases r with
  | direct a =>
    have ha : a < 65536 := hv
    have h1 : rdBe16 ((1 : Nat) :: (be16 a ++ rest)) 1 = a := by
      have h := rdBe16_at_len [1] (be16 a ++ rest)
      simp only [List.length_cons, List.length_nil, List.singleton_append] at h
      rw [h, rdBe16_be16 a ha]
    simp only [RecipientHeader.toBytes, List.cons_append]
    simp only [RecipientHeader.tryFromBytes, List.length_cons, List.length_append, be16_length,
      rdU8, List.getD_cons_zero, h1]
    norm_num
    intro h
    exact absurd h (by omega)
  | group l =>
    obtain ⟨hlo, hhi, hb⟩ := hv
    have hcnt : l.length % 256 = l.length := Nat.mod_eq_of_lt (by omega)
    have hread : readGroupEntries ((l.length % 256) :: (encPairs l ++ rest)) 1 l.length = l := by
      have h := readGroupEntries_encPairs l [l.length % 256] rest hb
      simpa using h
    have hne0 : l.length ≠ 0 := by omega
    have hne1 : l.length ≠ 1 := by omega
    simp only [RecipientHeader.toBytes, List.cons_append]
    simp only [RecipientHeader.tryFromBytes, List.length_cons, List.length_append]
    rw [show rdU8 ((l.length % 256) :: (encPairs l ++ rest)) 0 = l.length from by
      simp [rdU8, hcnt]]
    simp only [if_neg hne0, if_neg hne1, if_pos hhi]
    rw [if_neg (by omega)]
    rw [if_neg (by simp only [encPairs_length]; omega)]
    rw [hread]
    simp only [encPairs_length]
    congr 2
    omega

theorem radioHeadersToBytes_length (h : RadioHeaders) :
    h.toBytes.length = h.recipients.toBytes.length + 12 := by
  simp [RadioHeaders.toBytes, be16_length, be64_length]

theorem radioHeaders_tryFromBytes_toBytes (h : RadioHeaders) (hv : h.Valid) (rest : List Nat) :
    RadioHeaders.tryFromBytes (h.toBytes ++ rest) = .ok (h, h.toBytes.length) := by
  obtain ⟨hrn, hpl, hsend, hnon, hrec⟩ := hv
  have hrt := recipient_tryFromBytes_toBytes h.recipients hrec
    (be16 h.sender ++ ([h.payloads % 256] ++ (be64 h.nonce ++ rest)))
  have e1 : h.toBytes ++ rest = (h.recNFrames % 256) :: (h.recipients.toBytes ++
      (be16 h.sender ++ ([h.payloads % 256] ++ (be64 h.nonce ++ rest)))) := by
    simp [RadioHeaders.toBytes, List.append_assoc, List.cons_append]
  set R := h.recipients.toBytes with hR
  set tl : List Nat := R ++ (be16 h.sender ++ ([h.payloads % 256] ++ (be64 h.nonce ++ rest)))
    with htl
  have hlen : ((h.recNFrames % 256) :: tl).length = R.length + 12 + rest.length := by
    simp [htl, be16_length, be64_length]
    omega
  have hs : rdBe16 ((h.recNFrames % 256) :: tl) (R.length + 1) = h.sender := by
    have e : (h.recNFrames % 256) :: tl =
        ((h.recNFrames % 256) :: R) ++ (be16 h.sender ++ ([h.payloads % 256] ++
          (be64 h.nonce ++ rest))) := by
      simp [htl]
    have elen : R.length + 1 = ((h.recNFrames % 256) :: R).length := by simp
    rw [e, elen, rdBe16_at_len, rdBe16_be16 _ hsend]
  have hp : rdU8 ((h.recNFrames % 256) :: tl) (R.length + 3) = h.payloads := by
    have e : (h.recNFrames % 256) :: tl =
        (((h.recNFrames % 256) :: R) ++ be16 h.sender) ++
          ([h.payloads % 256] ++ (be64 h.nonce ++ rest)) := by
      simp [htl]
    have elen : R.length + 3 = (((h.recNFrames % 256) :: R) ++ be16 h.sender).length := by
      simp [be16_length]
    rw [e, elen, rdU8_at_len]
    simp [rdU8]
    omega
  have hn : rdBe64 ((h.recNFrames % 256) :: tl) (R.length + 4) = h.nonce := by
    have e : (h.recNFrames % 256) :: tl =
        ((((h.recNFrames % 256) :: R) ++ be16 h.sender) ++ [h.payloads % 256]) ++
          (be64 h.nonce ++ rest) := by
      simp [htl]
    have elen : R.length + 4 =
        ((((h.recNFrames % 256) :: R) ++ be16 h.sender) ++ [h.payloads % 256]).length := by
      simp [be16_length]
    rw [e, elen, rdBe64_at_len, rdBe64_be64 _ hnon]
  have h0 : rdU8 ((h.recNFrames % 256) :: tl) 0 = h.recNFrames := by
    simp [rdU8]
    omega
  rw [e1]
  unfold RadioHeaders.tryFromBytes
  rw [if_neg (by simp)]
  rw [show (((h.recNFrames % 256) :: tl).drop 1) = tl from rfl]
  rw [htl, hrt]
  simp only []
  rw [if_neg (by rw [hlen]; omega)]
  rw [if_neg (by rw [hlen]; omega)]
  rw [if_neg (by rw [hlen]; omega)]
  rw [hs, hp, hn, h0]
  rw [radioHeadersToBytes_length]

theorem encAcks_length (l : List (Nat × Nat × Int)) : (encAcks l).length = 12 * l.length := by
  induction l with
  | nil => rfl
  | cons hd tl ih =>
    obtain ⟨a, n, d⟩ := hd
    simp [encAcks, be16_length, be64_length, i16ToBytes_length, ih]
    omega

/-- Total byte length of the encoded payload block: two length bytes plus the
payload bytes, per payload. -/
def payloadsByteLen : List (List Nat) → Nat
  | [] => 0
  | pl :: rest => 2 + pl.length + payloadsByteLen rest

theorem encPayloads_length (l : List (List Nat)) :
    (encPayloads l).length = payloadsByteLen l := by
  induction l with
  | nil => rfl
  | cons pl tl ih =>
    simp [encPayloads, payloadsByteLen, be16_length, ih]
    omega

theorem readAcks_encAcks (acks : List (Nat × Nat × Int)) :
    ∀ pre post : List Nat, (∀ a ∈ acks, AckValid a) →
      readAcks (pre ++ (encAcks acks ++ post)) pre.length acks.length =
        .ok (acks, pre.length + 12 * acks.length) := by
  induction acks with
  | nil => intro pre post _; simp [readAcks]
  | cons hd tl ih =>
    intro pre post hv
    obtain ⟨a, n, d⟩ := hd
    obtain ⟨⟨ha, hn, hd1, hd2⟩, hv2⟩ :
        AckValid (a, n, d) ∧ ∀ x ∈ tl, AckValid x := by
      constructor
      · exact hv (a, n, d) (List.mem_cons_self _ _)
      · exact fun x hx => hv x (List.mem_cons_of_mem _ hx)
    have e : pre ++ (encAcks ((a, n, d) :: tl) ++ post) =
        pre ++ (be16 a ++ (be64 n ++ (i16ToBytes d ++ (encAcks tl ++ post)))) := by
      simp [encAcks, List.append_assoc]
    have hlen : (pre ++ (encAcks ((a, n, d) :: tl) ++ post)).length =
        pre.length + 12 + 12 * tl.length + post.length := by
      simp [encAcks, encAcks_length, be16_length, be64_length, i16ToBytes_length]
      omega
    have h0 : rdBe16 (pre ++ (encAcks ((a, n, d) :: tl) ++ post)) pre.length = a := by
      rw [e, rdBe16_at_len, rdBe16_be16 _ ha]
    have h2 : rdBe64 (pre ++ (encAcks ((a, n, d) :: tl) ++ post)) (pre.length + 2) = n := by
      have e2 : pre ++ (encAcks ((a, n, d) :: tl) ++ post) =
          (pre ++ be16 a) ++ (be64 n ++ (i16ToBytes d ++ (encAcks tl ++ post))) := by
        simp [encAcks, List.append_assoc]
      have elen : pre.length + 2 = (pre ++ be16 a).length := by simp [be16_length]
      rw [e2, elen, rdBe64_at_len, rdBe64_be64 _ hn]
    have h10 : rdI16 (pre ++ (encAcks ((a, n, d) :: tl) ++ post)) (pre.length + 10) = d := by
      have e2 : pre ++ (encAcks ((a, n, d) :: tl) ++ post) =
          (pre ++ be16 a ++ be64 n) ++ (i16ToBytes d ++ (encAcks tl ++ post)) := by
        simp [encAcks, List.append_assoc]
      have elen : pre.length + 10 = (pre ++ be16 a ++ be64 n).length := by
        simp [be16_length, be64_length]
      rw [e2, elen, rdI16_at_len, rdI16_i16 d hd1 hd2]
    have hrec : readAcks (pre ++ (encAcks ((a, n, d) :: tl) ++ post)) (pre.length + 12)
        tl.length = .ok (tl, pre.length + 12 + 12 * tl.length) := by
      have e2 : pre ++ (encAcks ((a, n, d) :: tl) ++ post) =
          (pre ++ be16 a ++ be64 n ++ i16ToBytes d) ++ (encAcks tl ++ post) := by
        simp [encAcks, List.append_assoc]
      have elen : pre.length + 12 = (pre ++ be16 a ++ be64 n ++ i16ToBytes d).length := by
        simp [be16_length, be64_length, i16ToBytes_length]
      rw [e2, elen, ih _ post hv2]
    simp only [List.length_cons, readAcks]
    rw [if_neg (by rw [hlen]; omega), if_neg (by rw [hlen]; omega)]
    rw [hrec]
    simp only []
    rw [h0, h2, h10]
    congr 2
    omega

theorem readPayloads_encPayloads (pls : List (List Nat)) :
    ∀ pre post : List Nat, (∀ pl ∈ pls, pl.length < 65536) →
      readPayloads (pre ++ (encPayloads pls ++ post)) pre.length pls.length =
        .ok (pls, pre.length + payloadsByteLen pls) := by
  induction pls with
  | nil => intro pre post _; simp [readPayloads, payloadsByteLen]
  | cons pl tl ih =>
    intro pre post hv
    have hpl : pl.length < 65536 := hv pl (List.mem_cons_self _ _)
    have hv2 : ∀ x ∈ tl, x.length < 65536 := fun x hx => hv x (List.mem_cons_of_mem _ hx)
    have hmod : pl.length % 65536 = pl.length := Nat.mod_eq_of_lt hpl
    have hlen : (pre ++ (encPayloads (pl :: tl) ++ post)).length =
        pre.length + 2 + pl.length + payloadsByteLen tl + post.length := by
      simp [encPayloads, encPayloads_length, be16_length]
      omega
    have h0 : rdBe16 (pre ++ (encPayloads (pl :: tl) ++ post)) pre.length = pl.length := by
      have e : pre ++ (encPayloads (pl :: tl) ++ post) =
          pre ++ (be16 (pl.length % 65536) ++ (pl ++ (encPayloads tl ++ post))) := by
        simp [encPayloads, List.append_assoc]
      rw [e, rdBe16_at_len, rdBe16_be16 _ (by omega), hmod]
    have hslice : ((pre ++ (encPayloads (pl :: tl) ++ post)).drop (pre.length + 2)).take
        pl.length = pl := by
      have e : pre ++ (encPayloads (pl :: tl) ++ post) =
          (pre ++ be16 (pl.length % 65536)) ++ (pl ++ (encPayloads tl ++ post)) := by
        simp [encPayloads, List.append_assoc]
      have elen : pre.length + 2 = (pre ++ be16 (pl.length % 65536)).length := by
        simp [be16_length]
      rw [e, elen, List.drop_left, List.take_left]
    have hrec : readPayloads (pre ++ (encPayloads (pl :: tl) ++ post))
        (pre.length + 2 + pl.length) tl.length =
        .ok (tl, pre.length + 2 + pl.length + payloadsByteLen tl) := by
      have e : pre ++ (encPayloads (pl :: tl) ++ post) =
          (pre ++ be16 (pl.length % 65536) ++ pl) ++ (encPayloads tl ++ post) := by
        simp [encPayloads, List.append_assoc]
      have elen : pre.length + 2 + pl.length =
          (pre ++ be16 (pl.length % 65536) ++ pl).length := by
        simp [be16_length]
        omega
      rw [e, elen, ih _ post hv2]
    simp only [List.length_cons, readPayloads]
    rw [if_neg (by rw [hlen]; omega), if_neg (by rw [hlen]; omega)]
    rw [h0]
    rw [if_neg (by rw [hlen]; omega), if_neg (by rw [hlen]; omega)]
    rw [hrec]
    simp only []
    rw [hslice]
    congr 2
    simp [payloadsByteLen]
    omega

theorem frameToBytes_length (f : RadioFrameWithHeaders) :
    f.toBytes.length = f.headers.toBytes.length + 1 + 12 * f.acknowledgements.length +
      payloadsByteLen f.payloads := by
  simp [RadioFrameWithHeaders.toBytes, encAcks_length, encPayloads_length]
  omega

/-- Round trip of the full frame codec: decoding the encoding of a valid
frame returns the frame and consumes exactly the encoded length. -/
theorem frame_tryFromBytes_toBytes (f : RadioFrameWithHeaders)
    (hv : f.Valid) :
    RadioFrameWithHeaders.tryFromBytes f.toBytes = .ok (f, f.toBytes.length) := by
  obtain ⟨hh, hpc, hal, hav, hplc, hplv⟩ := hv
  have e1 : f.toBytes = f.headers.toBytes ++ ([f.acknowledgements.length % 256] ++
      (encAcks f.acknowledgements ++ encPayloads f.payloads)) := by
    simp [RadioFrameWithHeaders.toBytes, List.append_assoc]
  have hhd := radioHeaders_tryFromBytes_toBytes f.headers hh
    ([f.acknowledgements.length % 256] ++ (encAcks f.acknowledgements ++ encPayloads f.payloads))
  set H := f.headers.toBytes with hH
  have hlen : f.toBytes.length = H.length + 1 + 12 * f.acknowledgements.length +
      payloadsByteLen f.payloads := frameToBytes_length f
  have hcnt : rdU8 f.toBytes H.length = f.acknowledgements.length := by
    rw [e1, rdU8_at_len]
    simp [rdU8]
    omega
  have hacks : readAcks f.toBytes (H.length + 1) f.acknowledgements.length =
      .ok (f.acknowledgements, H.length + 1 + 12 * f.acknowledgements.length) := by
    have e2 : f.toBytes = (H ++ [f.acknowledgements.length % 256]) ++
        (encAcks f.acknowledgements ++ encPayloads f.payloads) := by
      rw [e1]
      simp [List.append_assoc]
    have elen : H.length + 1 = (H ++ [f.acknowledgements.length % 256]).length := by simp
    rw [e2, elen, readAcks_encAcks f.acknowledgements _ _ hav]
  have hpls : readPayloads f.toBytes (H.length + 1 + 12 * f.acknowledgements.length)
      f.payloads.length =
      .ok (f.payloads, H.length + 1 + 12 * f.acknowledgements.length +
        payloadsByteLen f.payloads) := by
    have e2 : f.toBytes = (H ++ [f.acknowledgements.length % 256] ++
        encAcks f.acknowledgements) ++ (encPayloads f.payloads ++ []) := by
      rw [e1]
      simp [List.append_assoc]
    have elen : H.length + 1 + 12 * f.acknowledgements.length =
        (H ++ [f.acknowledgements.length % 256] ++ encAcks f.acknowledgements).length := by
      simp [encAcks_length]
      omega
    rw [e2, elen, readPayloads_encPayloads f.payloads _ _ (fun pl hp => (hplv pl hp).1)]
  unfold RadioFrameWithHeaders.tryFromBytes
  rw [show RadioHeaders.tryFromBytes f.toBytes = .ok (f.headers, H.length) from by
    rw [e1, hhd]]
  simp only []
  rw [if_neg (by rw [hlen]; omega)]
  rw [hcnt, hacks]
  simp only []
  rw [hpc, hpls]
  simp only []
  rw [hlen]

/-! ### Frame-type discriminants and physical slots (`frame.rs`, `radio.rs`)

The `FrameType` enum of `frame.rs` assigns `Message = 0` and
`BroadcastCheckSignal = 6`.  During `transmit` each physical slot is built by
pushing `FrameType::Message as u8` and then a chunk of the serialized frame;
`transmit_beacon` pushes `FrameType::BroadcastCheckSignal as u8`.  On
reception, `check_reception` discards a lead slot whose first byte is neither
of the two discriminants.
-/

/-- Discriminant value of `FrameType::Message`. -/
def frameTypeMessage : Nat := 0

/-- Discriminant value of `FrameType::BroadcastCheckSignal` (the beacon). -/
def frameTypeBroadcastCheckSignal : Nat := 6

/-- A transmitted message slot (`radio.rs::transmit`): the discriminant byte
followed by the chunk of the serialized frame. -/
def mkMessageSlot (chunk : List Nat) : List Nat := frameTypeMessage :: chunk

/-- A transmitted beacon slot (`radio.rs::transmit_beacon`). -/
def mkBeaconSlot (bytes : List Nat) : List Nat := frameTypeBroadcastCheckSignal :: bytes

/-- Whether `check_reception` treats a lead slot with first byte `b` as a
message (the negation of its early-return condition). -/
def leadSlotAccepted (b : Nat) : Bool :=
  b == frameTypeMessage || b == frameTypeBroadcastCheckSignal

/-! ### Nonce construction (`radio.rs::build_frame`)

The source computes
`nonce = (ts << 16) + ((rp[1] as u64) << 8) + (rp[0] as u64)` in `u64`
arithmetic, where `ts` is the UNIX wall-clock time in seconds and
`rp : [u8; 2]` holds random bytes.
-/

/-- Nonce construction of `build_frame`: the wall-clock seconds shifted left
by 16, plus the two random bytes, wrapping as `u64`. -/
def mkNonce (ts rhi rlo : Nat) : Nat := (ts * 65536 + rhi * 256 + rlo) % 2 ^ 64

/-! ### Transmit slot loop (`radio.rs::transmit`)

The loop iterates over `channels.iter().take(nframes)`.  In each iteration it
builds the slot, starts the transmission, and then increments `fcursor`
BEFORE the remaining bookkeeping, so the poll loop reads
`channels[fcursor].delay.poll_delay` and the ledger update reads and writes
`channel_usages[fcursor]` at the incremented index.  Instants are modelled as
microsecond timestamps; `Duration::from_millis(400)` is 400000, and the
per-channel configuration is reduced to its `duty_interval` number (the raw
configured figure, which the source compares against an elapsed microsecond
count via `clast.elapsed().as_micros() > ch.delay.duty_interval.into()`).
A channel-usage ledger entry is a pair (last-use instant, consumed on-air
time).  The CAD probe and the duty checks of `transmission_check` run before
this loop and are not part of it.
-/

/-- Observable timing of one slot iteration: the instant taken by
`last = Instant::now()` just before `start_transmit`, the instant at which the
post-transmission bookkeeping runs, and how many times the completion-poll
loop body ran (each run reads `channels[fcursor].delay.poll_delay`). -/
structure SlotEnv where
  start : Nat
  fin : Nat
  polls : Nat
deriving DecidableEq, Repr

/-- Outcome of the slot loop: the final channel-usage ledger, an `OutOfSync`
error return, or a Rust panic from an out-of-bounds index. -/
inductive TxOutcome where
  | ok (usages : List (Nat × Nat))
  | outOfSync
  | crash
deriving DecidableEq, Repr

/-- The per-slot ledger update of `transmit` (lines 558-566): read
`channel_usages[fcursor]` (after the increment), reset the consumed time to
400 ms if the duty-interval figure has elapsed in microseconds since that
entry's last use, otherwise add 400 ms, and store the slot's start instant.
Returns `none` when the index is out of bounds (Rust panics there). -/
def slotLedger (chDuty : Nat) (env : SlotEnv) (usages : List (Nat × Nat)) (fc : Nat) :
    Option (List (Nat × Nat)) :=
  match usages.get? fc with
  | none => none
  | some (clast, consumed) =>
    some (usages.set fc
      (env.start, if chDuty < env.fin - clast then 400000 else consumed + 400000))

/-- The slot loop of `transmit`.  The first list pairs each transmitted slot
with the `duty_interval` of the channel it is sent on (`ch` in the source) and
its timing; `fcursor` is the cursor value before the iteration.  Inside one
iteration, in source order: the completion poll (which indexes
`channels[fcursor]` after the increment whenever it runs at least once), the
ledger update at the incremented cursor, and the 600 ms `OutOfSync` check
(`last.elapsed().as_millis() > 600`). -/
def txSlotLoop (channels : List Nat) :
    List (Nat × SlotEnv) → List (Nat × Nat) → Nat → TxOutcome
  | [], usages, _ => .ok usages
  | (chDuty, env) :: rest, usages, fcursor =>
    let fc := fcursor + 1
    if 0 < env.polls ∧ channels.length ≤ fc then .crash
    else
      match slotLedger chDuty env usages fc with
      | none => .crash
      | some usages2 =>
        if 600 < (env.fin - env.start) / 1000 then .outOfSync
        else txSlotLoop channels rest usages2 fc

/-- The whole multi-slot transmission of a pending frame with `nframes`
slots: iterate over `channels.iter().take(nframes)` starting at cursor 0. -/
def transmitSlots (channels : List Nat) (envs : List SlotEnv)
    (usages : List (Nat × Nat)) (nframes : Nat) : TxOutcome :=
  txSlotLoop channels ((channels.take nframes).zip envs) usages 0

/-! ### Pending-acknowledgment drain (`radio.rs::check_reception`, lines 623-677)

`check_reception` first pops entries off the `pending_tx_acknowledgments`
ring buffer (front = oldest push).  A popped entry younger than 60 s is
pushed back at the tail (`push_overwrite`; the ring cannot be full here since
an element was just popped) and the loop stops.  An expired entry triggers
the failure path: search `tx_history` by popping frames until the nonce
matches (discarding the popped mismatches), push the found frame back, and
invoke `transmission_failed` once per payload addressed to that recipient.
Timestamps are in seconds; `Duration::from_secs(60)` is 60.
-/

/-- One entry of the `pending_tx_acknowledgments` ring: recipient address
header, frame nonce, the instant the frame was sent, and the
update-the-ATPC flag. -/
structure PendingAck where
  addr : Nat
  nonce : Nat
  instant : Nat
  updateAtpc : Bool
deriving DecidableEq, Repr

/-- The `AddressHeader::get_address` accessor: the low 15 bits
(`addr & ADDRESS_BITMASK`, with `ADDRESS_BITMASK = 0x7FFF`). -/
def getAddress (a : Nat) : Nat := a % 32768

/-- The `AddressHeader::get_acknowledgment` accessor: the high bit
(`addr & ACKNOWLEDGMENT_BITMASK`, with `ACKNOWLEDGMENT_BITMASK = 0x8000`). -/
def getAck (a : Nat) : Bool := a / 32768 % 2 == 1

/-- The `AddressHeader::is_global` accessor: the 15-bit address equals
`GLOBAL_NO_ACKNOWLEDGMENT = 0x7FFF`. -/
def isGlobal (a : Nat) : Bool := getAddress a == 32767

/-- The `PayloadFlag::to_message_ids` accessor: the indices `i` in `0..16`
whose bit is set (`(pf & (1 << i)) > 0`). -/
def toMessageIds (pf : Nat) : List Nat :=
  (List.range 16).filter fun i => 0 < pf % 65536 / 2 ^ i % 2

/-- The `tx_history` search: pop frames (discarding them) until the nonce
matches; return the found frame and the frames still behind it. -/
def historyFind : List RadioFrameWithHeaders → Nat →
    Option (RadioFrameWithHeaders × List RadioFrameWithHeaders)
  | [], _ => none
  | f :: rest, nonce =>
    if f.headers.nonce = nonce then some (f, rest) else historyFind rest nonce

/-- The `transmission_failed` invocations for one expired entry, from the
originating frame found in `tx_history`: for a Direct frame whose recipient
address matches, one per payload; for a Group frame, one per payload index of
each matching recipient slot (when the index exists). -/
def failNotifs (f : RadioFrameWithHeaders) (entryAddr nonce : Nat) :
    List (Nat × Nat × List Nat) :=
  match f.headers.recipients with
  | .direct ah2 =>
    if getAddress entryAddr = getAddress ah2 then
      f.payloads.map fun pl => (getAddress entryAddr, nonce, pl)
    else []
  | .group ahs =>
    ahs.flatMap fun p =>
      if getAddress entryAddr = getAddress p.1 then
        (toMessageIds p.2).filterMap fun mid =>
          (f.payloads.get? mid).map fun pl => (getAddress entryAddr, nonce, pl)
      else []

/-- The drain loop at the head of `check_reception`.  Returns the remaining
pending ring, the remaining history, the entries that expired on this
invocation, and the `transmission_failed` notifications (address, nonce,
payload).  `hasTxClient` tells whether a transmit client is connected (the
history search and the notifications only run when it is).  The
`report_failed_reception` call to the ATPC for entries flagged
`updateAtpc` is outside this model; the fired entries carry the flag, so
nothing about which entries expire is lost. -/
def drainExpired (now : Nat) (hasTxClient : Bool) :
    List PendingAck → List RadioFrameWithHeaders →
      List PendingAck × List RadioFrameWithHeaders × List PendingAck ×
        List (Nat × Nat × List Nat)
  | [], history => ([], history, [], [])
  | e :: rest, history =>
    if now - e.instant < 60 then (rest ++ [e], history, [], [])
    else
      let step :=
        if hasTxClient then
          match historyFind history e.nonce with
          | some (f, hrest) => (hrest ++ [f], failNotifs f e.addr e.nonce)
          | none => ([], [])
        else (history, [])
      let tail := drainExpired now hasTxClient rest step.1
      (tail.1, tail.2.1, e :: tail.2.2.1, step.2 ++ tail.2.2.2)

/-! ### ATPC (`atpc.rs`, `DefaultATPC`)

The `LruCache` of neighbors (capacity 128) and of beacons (capacity
`tp_len + 1`) are modelled as association lists; the claims below never
exercise eviction or depend on the recency order, and the cached values do
not depend on it either.  `i16`/`i8` arithmetic is `Int` with explicit
saturation where a cast occurs.  Rust `i16` division truncates toward zero
(`Int.tdiv`) and panics on a zero divisor, modelled as `none`.
-/

/-- The `NeighborModel` struct: address, status (`true` = Runtime,
`false` = Initializing), the control model `(a, b)` with predicted
`RSSI = a * TP + b`, and one RSSI sample per configured transmit power. -/
structure NeighborModel where
  nodeAddress : Nat
  statusRuntime : Bool
  cmA : Int
  cmB : Int
  rssi : List Int
deriving DecidableEq, Repr

/-- The `NeighborModel::new` constructor: Initializing, model `(0, 0)`,
`ntp` zero samples. -/
def NeighborModel.new (addr ntp : Nat) : NeighborModel :=
  { nodeAddress := addr, statusRuntime := false, cmA := 0, cmB := 0,
    rssi := List.replicate ntp 0 }

/-- The `DefaultATPC` state used by the claims: the neighbor table, the
configured transmission powers, the default power index, the lower RSSI
threshold, and the registered beacons (nonce, transmit-power index). -/
structure AtpcState where
  neighbors : List (Nat × NeighborModel)
  transmissionPowers : List Int
  defaultTp : Nat
  lowerRssi : Int
  beacons : List (Nat × Nat)
deriving DecidableEq, Repr

/-- Look a neighbor up in the table. -/
def findNeighbor (st : AtpcState) (addr : Nat) : Option NeighborModel :=
  (st.neighbors.find? fun p => p.1 == addr).map Prod.snd

/-- Update a neighbor in place. -/
def setNeighbor (st : AtpcState) (addr : Nat) (n : NeighborModel) : AtpcState :=
  { st with neighbors := st.neighbors.map fun p => if p.1 = addr then (p.1, n) else p }

/-- Saturating cast of a float/int quotient to `i16` (`as i16`). -/
def toI16Sat (x : Int) : Int := max (-32768) (min 32767 x)

/-- The `DefaultATPC::calc_node_tp` function: target transmit power
`(lower_rssi - b) / a` in `i16` arithmetic (truncated division; `none` models
the division-by-zero panic when `a = 0`); then the first configured power at
least the target, or the last configured power. -/
def calcNodeTp (st : AtpcState) (addr : Nat) : Option Int :=
  match findNeighbor st addr with
  | none => none
  | some neigh =>
    if neigh.cmA = 0 then none
    else
      let target := (st.lowerRssi - neigh.cmB).tdiv neigh.cmA
      match st.transmissionPowers.find? (fun tp => target ≤ tp) with
      | some tp => some tp
      | none => st.transmissionPowers.getLast?

/-- The `DefaultATPC::get_tx_power` function: `calc_node_tp` for a known
neighbor, the default configured power otherwise. -/
def getTxPower (st : AtpcState) (addr : Nat) : Option Int :=
  if (findNeighbor st addr).isSome then calcNodeTp st addr
  else st.transmissionPowers.get? st.defaultTp

/-- The loop of `DefaultATPC::get_min_tx_power`: `tx_power` starts as `None`;
each sorted address is pushed when `tx_power.is_none()` or its power equals
`tx_power.unwrap()`, and only the `tp > tx_power.unwrap()` arm (never reached
while `tx_power` is `None`) assigns it. -/
def getMinTxPowerLoop (st : AtpcState) :
    List Nat → Option Int → List Nat → Option (Option Int × List Nat)
  | [], txp, su => some (txp, su)
  | na :: rest, txp, su =>
    match getTxPower st na with
    | none => none
    | some tp =>
      match txp with
      | none => getMinTxPowerLoop st rest none (su ++ [na])
      | some t =>
        if tp = t then getMinTxPowerLoop st rest (some t) (su ++ [na])
        else if t < tp then getMinTxPowerLoop st rest (some tp) [na]
        else getMinTxPowerLoop st rest (some t) su

/-- The `DefaultATPC::get_min_tx_power` function: sort the addresses, run the
loop, and fall back to the default power with the whole sorted list when
`tx_power` ended as `None`. -/
def getMinTxPower (st : AtpcState) (addrs : List Nat) : Option (Int × List Nat) :=
  let sorted := List.insertionSort (· ≤ ·) addrs
  match getMinTxPowerLoop st sorted none [] with
  | none => none
  | some (some txp, su) => some (txp, su)
  | some (none, _) =>
    match st.transmissionPowers.get? st.defaultTp with
    | none => none
    | some d => some (d, sorted)

/-- The `DefaultATPC::rebuid_neighbor_model` function.  The sums are over the
configured powers and the neighbor samples; the source computes them in
`f32`, divides, and casts with `as i16`.  The division here is exact integer
truncation toward zero of the rational quotient; the claim theorems evaluate
it only at inputs where the `f32` computation is exact up to that final
truncation (all intermediate sums and products are integers below `2^24`,
and the two quotients land on values whose truncation is unaffected by one
`f32` rounding step), so the model agrees with the source there.  The
denominator is the source's `n * Σ tp² + (Σ tp)²` — with a plus sign — and
`control_model.0` receives the numerator `Σrssi·(Σtp)² − Σtp·Σ(tp·rssi)`
while `control_model.1` receives `n·Σ(tp·rssi) − Σtp·Σrssi`, exactly as the
source assigns them.  The neighbor becomes Runtime. -/
def rebuildNeighborModel (st : AtpcState) (addr : Nat) : AtpcState :=
  match findNeighbor st addr with
  | none => st
  | some neigh =>
    let tps := st.transmissionPowers
    let n : Int := tps.length
    let sumTp : Int := tps.foldl (· + ·) 0
    let sumRssi : Int := neigh.rssi.foldl (· + ·) 0
    let sumTpRssi : Int :=
      (List.range tps.length).foldl (fun acc i => acc + tps.getD i 0 * neigh.rssi.getD i 0) 0
    let denom : Int := n * tps.foldl (fun acc x => acc + x * x) 0 + sumTp * sumTp
    let a2 := toI16Sat ((sumRssi * sumTp * sumTp - sumTp * sumTpRssi).tdiv denom)
    let b2 := toI16Sat ((n * sumTpRssi - sumTp * sumRssi).tdiv denom)
    setNeighbor st addr { neigh with cmA := a2, cmB := b2, statusRuntime := true }

/-- The `DefaultATPC::update_neighbor_model` function (runtime adjustment):
when the current power is not at the relevant rail, `b` is decremented by the
delta.  `none` models the panics of `get_tx_power` and of indexing an empty
power list. -/
def updateNeighborModel (st : AtpcState) (addr : Nat) (delta : Int) : Option AtpcState :=
  match getTxPower st addr with
  | none => none
  | some tp =>
    match findNeighbor st addr with
    | none => some st
    | some neigh =>
      match st.transmissionPowers.getLast?, st.transmissionPowers.head? with
      | some hi, some lo =>
        if (0 < delta ∧ tp < hi) ∨ (delta < 0 ∧ lo < tp) then
          some (setNeighbor st addr { neigh with cmB := neigh.cmB - delta })
        else some st
      | _, _ => none

/-- The `DefaultATPC::report_successful_reception` function: when the nonce
is a registered beacon, store the delta-RSSI at that beacon's power index
(`none` models the panic of `rssi[tpi] = drssi` out of bounds) and refit the
model; otherwise run the runtime adjustment. -/
def reportSuccessfulReception (st : AtpcState) (addr nonce : Nat) (drssi : Int) :
    Option AtpcState :=
  match st.beacons.find? (fun p => p.1 == nonce) with
  | some (_, tpi) =>
    match findNeighbor st addr with
    | none => some st
    | some neigh =>
      if neigh.rssi.length ≤ tpi then none
      else
        some (rebuildNeighborModel (setNeighbor st addr
          { neigh with rssi := neigh.rssi.set tpi drssi }) addr)
  | none => updateNeighborModel st addr drssi

/-! ### Queue (`radio.rs::queue` and `build_frame`)

The driver state touched by `queue`: the payload buffer, the outgoing
acknowledgment buffer, the stashed pending frame, and the set of addresses
registered with the ATPC (`register_neighbor` inserts an absent address; the
LRU recency order is not observed by the claims).  `build_frame` is pure in
the source (`&self`); its recipient `HashMap` is modelled as an association
list in first-insertion order (no claim depends on the map's iteration
order — the size checks that decide success are order-independent), and its
wall-clock/random nonce is passed in as a parameter.
-/

/-- The internal `LoRaMessage` of `radio.rs`: resolved recipient address
headers and the payload. -/
structure LoRaMessage where
  dest : List Nat
  payload : List Nat
deriving DecidableEq, Repr

/-- The `LoRaDestination` enum of `lib.rs`. -/
inductive LoRaDestination where
  | global
  | unique (addr : Nat)
  | group (addrs : List Nat)
deriving DecidableEq, Repr

/-- The driver state touched by `queue`. -/
structure DriverState where
  txBuffer : List LoRaMessage
  txBufAcks : List (Nat × Nat × Int)
  txFrame : Option RadioFrameWithHeaders
  atpcNeighbors : List Nat
deriving DecidableEq, Repr

/-- The `register_neighbor` effect on the set of registered addresses:
insert when absent. -/
def registerNeighbor (ns : List Nat) (a : Nat) : List Nat :=
  if a ∈ ns then ns else ns ++ [a]

/-- Recipient list and neighbor registrations of `queue` (lines 437-458):
Global maps to the global address with or without the ACK bit and registers
nothing; Unique registers the address only when ACK is requested; Group
registers every address regardless of ACK. -/
def queueRecipients (ns : List Nat) (dest : LoRaDestination) (ack : Bool) :
    List Nat × List Nat :=
  match dest with
  | .global => (if ack then [65535] else [32767], ns)
  | .unique addr =>
    if ack then ([addr % 32768 + 32768], registerNeighbor ns addr)
    else ([addr % 32768], ns)
  | .group addrs =>
    (addrs.map (fun a => if ack then a % 32768 + 32768 else a % 32768),
      addrs.foldl registerNeighbor ns)

/-- The `PayloadFlag::new(&[id])` value: bit `id` set, wrapping as `u16`
(`1 << id` on a `u16`). -/
def pfSingle (id : Nat) : Nat := 2 ^ id % 65536

/-- The `PayloadFlag::push` operation: or in bit `id`, wrapping as `u16`. -/
def pfPush (pf id : Nat) : Nat := Nat.lor pf (2 ^ id % 65536)

/-- Insert payload `id` for recipient `addr` into the recipient map
(`recipients.get_mut` / `recipients.insert` in `build_frame`). -/
def mapPush : List (Nat × Nat) → Nat → Nat → List (Nat × Nat)
  | [], addr, id => [(addr, pfSingle id)]
  | (a, pf) :: rest, addr, id =>
    if a = addr then (a, pfPush pf id) :: rest else (a, pf) :: mapPush rest addr id

/-- The first loop of `build_frame`: for each buffered message (with its
index) and each of its recipients, record the payload index. -/
def buildRecipientMap : List LoRaMessage → Nat → List (Nat × Nat) → List (Nat × Nat)
  | [], _, m => m
  | msg :: rest, id, m =>
    buildRecipientMap rest (id + 1) (msg.dest.foldl (fun acc rec => mapPush acc rec id) m)

/-- The second loop of `build_frame`: each acknowledgment address absent from
the map is inserted with an empty payload flag. -/
def addAckRecipients (m : List (Nat × Nat)) (acks : List (Nat × Nat × Int)) :
    List (Nat × Nat) :=
  acks.foldl (fun acc a => if (acc.find? fun p => p.1 == a.1).isSome then acc
    else acc ++ [(a.1, 0)]) m

/-- The `InfoHeader::new` constructor: the recipient count in the high
nibble, the frame count in the low nibble (`u8` shift wraps). -/
def infoHeaderNew (recipients frames : Nat) : Nat :=
  recipients * 16 % 256 / 16 * 16 + frames % 16

/-- The `InfoHeader::set_frames` modifier: replace the low nibble. -/
def infoSetFrames (info frames : Nat) : Nat := info / 16 * 16 + frames % 16

/-- The `FrameSize` of a recipient header: `1 + 2` for Direct,
`1 + 4 n` for a Group (the fold of `frame.rs` starts at 1). -/
def recipientHeaderSize : RecipientHeader → Nat
  | .direct _ => 3
  | .group l => 1 + 4 * l.length

/-- The `FrameSize` of `RadioHeaders`: info byte, recipient header, payload
count, sender, nonce. -/
def radioHeadersSize (h : RadioHeaders) : Nat :=
  1 + recipientHeaderSize h.recipients + 1 + 2 + 8

/-- The `FrameSize` of the acknowledgment vector: 12 bytes each. -/
def acksSize (l : List (Nat × Nat × Int)) : Nat := 12 * l.length

/-- The `FrameSize` of the payload vector: the source folds with initial
accumulator 1 and adds `2 + len` per payload. -/
def payloadsSize (pls : List (List Nat)) : Nat := 1 + payloadsByteLen pls

/-- The `FrameSize` of a whole frame. -/
def frameSize (f : RadioFrameWithHeaders) : Nat :=
  radioHeadersSize f.headers + payloadsSize f.payloads + acksSize f.acknowledgements

/-- Errors of `build_frame` (`RadioError` variants it constructs). -/
inductive BuildErr where
  | tooBigFrame
  | tooBigFirstFrame
  | invalidRecipients
deriving DecidableEq, Repr

/-- The `build_frame` function of `radio.rs` (the `sender` address and the
nonce are parameters; `MAX_LORA_PAYLOAD = 253`, `MAX_FRAME_LENGTH = 1265`).
One registered recipient gives a Direct frame, 2 to 16 a Group frame, other
counts an error; the first-slot check is `headers.size + acks.size > 253`
and the total check `frame.size > 1265`; the frame count written into the
info header is `frame.size / 253 + 1`. -/
def buildFrame (sender nonce : Nat) (buffer : List LoRaMessage)
    (acks : List (Nat × Nat × Int)) : Except BuildErr RadioFrameWithHeaders :=
  let recipients := addAckRecipients (buildRecipientMap buffer 0 []) acks
  let payloads := buffer.map (·.payload)
  if recipients.length = 0 then .error .invalidRecipients
  else if recipients.length = 1 then
    let headers : RadioHeaders :=
      { recNFrames := infoHeaderNew 1 0,
        recipients := .direct (recipients.headD (0, 0)).1,
        payloads := payloads.length % 256, sender := sender, nonce := nonce }
    if 253 < radioHeadersSize headers + acksSize acks then .error .tooBigFirstFrame
    else
      let frame : RadioFrameWithHeaders :=
        { headers := headers, acknowledgements := acks, payloads := payloads }
      if 1265 < frameSize frame then .error .tooBigFrame
      else .ok { frame with headers :=
        { headers with recNFrames :=
            infoSetFrames headers.recNFrames (frameSize frame / 253 + 1) } }
  else if recipients.length ≤ 16 then
    let headers : RadioHeaders :=
      { recNFrames := infoHeaderNew 1 0, recipients := .group recipients,
        payloads := payloads.length % 256, sender := sender, nonce := nonce }
    if 253 < radioHeadersSize headers + acksSize acks then .error .tooBigFirstFrame
    else
      let frame : RadioFrameWithHeaders :=
        { headers := headers, acknowledgements := acks, payloads := payloads }
      if 1265 < frameSize frame then .error .tooBigFrame
      else .ok { frame with headers :=
        { headers with recNFrames :=
            infoSetFrames headers.recNFrames (frameSize frame / 253 + 1) } }
  else .error .invalidRecipients

/-- The `QueueError` wrapper of `device.rs`. -/
inductive QueueErr where
  | queueFull (e : BuildErr)
  | deviceErr (e : BuildErr)
deriving DecidableEq, Repr

/-- The `queue` operation of `radio.rs`: resolve recipients (registering
ATPC neighbors as a side effect), reject more than 48 recipients with
`QueueFull(InvalidRecipients)`, build the tentative frame over the extended
buffer, and only on success commit the buffer and stash the frame.
`TooBigFrame` is wrapped in `QueueFull`, every other build error in
`DeviceError`. -/
def queueOp (st : DriverState) (sender nonce : Nat) (dest : LoRaDestination)
    (payload : List Nat) (ack : Bool) : Except QueueErr Unit × DriverState :=
  let rns := queueRecipients st.atpcNeighbors dest ack
  let st1 := { st with atpcNeighbors := rns.2 }
  if 48 < rns.1.length then (.error (.queueFull .invalidRecipients), st1)
  else
    let buf := st1.txBuffer ++ [{ dest := rns.1, payload := payload }]
    match buildFrame sender nonce buf st1.txBufAcks with
    | .ok frame => (.ok (), { st1 with txBuffer := buf, txFrame := some frame })
    | .error .tooBigFrame => (.error (.queueFull .tooBigFrame), st1)
    | .error e => (.error (.deviceErr e), st1)

/-! ### Claim theorems -/

/-- C1: For every valid `RadioFrameWithHeaders F` (payload-count header field
equal to the number of payloads, one Direct recipient or a Group of 2 to 16
recipients, at most 16 acknowledgement entries, at most 16 payloads, each
payload shorter than `2 ^ 16` bytes), decoding the encoding returns the same
frame and consumes exactly the encoded length:
`try_from_bytes (F.to_bytes) = Ok (F, F.to_bytes.len())`. -/
theorem c1_codec_roundtrip (f : RadioFrameWithHeaders) (hv : f.Valid) :
    RadioFrameWithHeaders.tryFromBytes f.toBytes = .ok (f, f.toBytes.length) :=
  frame_tryFromBytes_toBytes f hv

/-- A concrete valid frame exercising a group recipient header, the
acknowledgement block and several payloads. -/
def c1Frame : RadioFrameWithHeaders :=
  { headers := { recNFrames := 0x32, recipients := .group [(2, 5), (0x8100, 10), (0xFFFF, 3)],
                 payloads := 2, sender := 1, nonce := 0x0102030405060708 },
    acknowledgements := [(0x0100, 0xCDEAD, 10), (0x0200, 0xDEADBEEFCAFE, -10)],
    payloads := [[72, 69], [76, 79, 33]] }

/-- Witness for C1 at the concrete frame `c1Frame`. -/
theorem c1_codec_roundtrip_witness :
    RadioFrameWithHeaders.tryFromBytes c1Frame.toBytes =
      .ok (c1Frame, c1Frame.toBytes.length) :=
  c1_codec_roundtrip c1Frame (by decide)

/-- A concrete valid direct frame (the encode-decode scenario of the spec). -/
def c2Frame : RadioFrameWithHeaders :=
  { headers := { recNFrames := 0x11, recipients := .direct 2, payloads := 1, sender := 1,
                 nonce := 0x0102030405060708 },
    acknowledgements := [], payloads := [[72, 69, 76, 79, 33]] }

/-- C2: frame decoding is not total.  A recipient count of zero and one of
17 do return the `InvalidHeader` error as claimed, but the valid encoding of
`c2Frame` truncated to its 15 header bytes makes `try_from_bytes` read
`bytes[cursor]` past the end (a Rust index-out-of-bounds panic, `crash`)
instead of returning `InvalidHeader`; the untruncated encoding decodes
fine. -/
theorem c2_truncated_input_panics :
    RadioFrameWithHeaders.tryFromBytes (c2Frame.toBytes.take 15) = .crash ∧
      RadioFrameWithHeaders.tryFromBytes [0x11, 0, 0, 2] = .err ∧
      RadioFrameWithHeaders.tryFromBytes [0x11, 17, 0, 2, 0, 5] = .err ∧
      RadioFrameWithHeaders.tryFromBytes c2Frame.toBytes =
        .ok (c2Frame, c2Frame.toBytes.length) := by
  refine ⟨by decide, by decide, by decide, by decide⟩

/-- C3 counterexample: the discriminant byte placed at offset 0 of a
transmitted message slot is `FrameType::Message = 0`, not 1. -/
theorem c3_message_discriminant_zero :
    (mkMessageSlot [1, 2, 3]).head? = some 0 ∧ (mkMessageSlot [1, 2, 3]).head? ≠ some 1 := by
  decide

/-- C3 (amended): the frame-type discriminant byte placed at offset 0 of
every transmitted physical slot is 0 for a Message frame and 6 for a Beacon
frame, and on reception a lead slot is treated as a message exactly when its
first byte is one of these two values. -/
theorem c3_discriminant_bytes :
    (∀ chunk : List Nat, (mkMessageSlot chunk).head? = some 0) ∧
      (∀ bs : List Nat, (mkBeaconSlot bs).head? = some 6) ∧
      ∀ b : Nat, leadSlotAccepted b = true ↔ b = 0 ∨ b = 6 := by
  refine ⟨fun _ => rfl, fun _ => rfl, fun b => ?_⟩
  simp [leadSlotAccepted, frameTypeMessage, frameTypeBroadcastCheckSignal]

/-- C8 counterexample: within one second, the two generations may draw the
same 16-bit random suffix, and then the two nonces are equal — so
distinctness does not hold for every possible pair of suffixes. -/
theorem c8_nonce_collision :
    mkNonce 1700000000 4 210 = mkNonce 1700000000 4 210 ∧
      mkNonce 1700000000 4 210 = 1700000000 * 65536 + 1234 := by
  constructor
  · rfl
  · decide

/-- C8 (amended): every nonce is `(unix_seconds <<< 16) ||| random16` (the
source adds the two random bytes, which coincides with the bitwise or since
the low 16 bits of the shift are zero), and two nonces generated by the same
node within the same one-second window are distinct exactly when their
16-bit random suffixes differ — equal suffixes give equal nonces. -/
theorem c8_nonce_construction (ts r1hi r1lo r2hi r2lo : Nat)
    (hts : ts < 2 ^ 48) (h1 : r1hi < 256) (h2 : r1lo < 256)
    (h3 : r2hi < 256) (h4 : r2lo < 256) :
    mkNonce ts r1hi r1lo = Nat.lor (ts <<< 16) (r1hi * 256 + r1lo) ∧
      (mkNonce ts r1hi r1lo = mkNonce ts r2hi r2lo ↔ r1hi = r2hi ∧ r1lo = r2lo) := by
  constructor
  · have hr : r1hi * 256 + r1lo < 2 ^ 16 := by omega
    have h : 2 ^ 16 * ts + (r1hi * 256 + r1lo) =
        Nat.lor (2 ^ 16 * ts) (r1hi * 256 + r1lo) := Nat.mul_add_lt_is_or hr ts
    rw [Nat.shiftLeft_eq, Nat.mul_comm ts (2 ^ 16), ← h]
    simp only [mkNonce]
    rw [Nat.mod_eq_of_lt (by omega)]
    omega
  · simp only [mkNonce]
    rw [Nat.mod_eq_of_lt (by omega), Nat.mod_eq_of_lt (by omega)]
    omega

/-- Witness for C8 at concrete values. -/
theorem c8_nonce_construction_witness :
    mkNonce 1700000000 4 210 = Nat.lor (1700000000 <<< 16) (4 * 256 + 210) ∧
      (mkNonce 1700000000 4 210 = mkNonce 1700000000 4 211 ↔ (4 = 4 ∧ 210 = 211)) :=
  c8_nonce_construction 1700000000 4 210 4 211 (by decide) (by decide) (by decide)
    (by decide) (by decide)

/-- An ATPC state with two Runtime neighbors whose fitted models demand
different powers: neighbor 1 needs power 4 (target 3) and neighbor 2 needs
power 10 (target 9) against the ascending power list. -/
def c4State : AtpcState :=
  { neighbors := [(1, { nodeAddress := 1, statusRuntime := true, cmA := 1, cmB := -103,
                        rssi := [0, 0, 0, 0, 0] }),
                  (2, { nodeAddress := 2, statusRuntime := true, cmA := 1, cmB := -109,
                        rssi := [0, 0, 0, 0, 0] })],
    transmissionPowers := [2, 4, 6, 8, 10], defaultTp := 0, lowerRssi := -100, beacons := [] }

/-- ATPC state right after a beacon round at powers `[10, 8, 6, 4, 2]`
(the spec's scenario 6): one freshly registered neighbor, five registered
beacons with nonces 101..105 at power indices 0..4. -/
def c5Init : AtpcState :=
  { neighbors := [(5, NeighborModel.new 5 5)],
    transmissionPowers := [10, 8, 6, 4, 2], defaultTp := 0, lowerRssi := -100,
    beacons := [(101, 0), (102, 1), (103, 2), (104, 3), (105, 4)] }

/-- The state after the peer acknowledges all five beacons with the
noiseless delta-RSSI samples `[-20, -25, -30, -35, -40]` of the linear
ground truth `RSSI(TP) = 2.5 TP - 45`. -/
def c5Final : Option AtpcState :=
  ((((reportSuccessfulReception c5Init 5 101 (-20)).bind
      (reportSuccessfulReception · 5 102 (-25))).bind
      (reportSuccessfulReception · 5 103 (-30))).bind
      (reportSuccessfulReception · 5 104 (-35))).bind
      (reportSuccessfulReception · 5 105 (-40))

/-- A fresh driver state: empty buffers, no pending frame, no registered
ATPC neighbor. -/
def c10State : DriverState :=
  { txBuffer := [], txBufAcks := [], txFrame := none, atpcNeighbors := [] }

/-- The slot loop never completes when it runs off the end of the channel
list: with `channels.length = fc + pairs.length` the last iteration indexes
the channel-usage vector (and, if it polls, the channel list) at
`channels.length`. -/
theorem txSlotLoop_overrun (pairs : List (Nat × SlotEnv)) :
    ∀ (channels : List Nat) (usages : List (Nat × Nat)) (fc : Nat),
      pairs ≠ [] → usages.length = channels.length →
      channels.length = fc + pairs.length →
      (∀ us, txSlotLoop channels pairs usages fc ≠ .ok us) ∧
      ((∀ p ∈ pairs, (p.2.fin - p.2.start) / 1000 ≤ 600) →
        txSlotLoop channels pairs usages fc = .crash) := by
  induction pairs with
  | nil => intro _ _ _ hne _ _; exact absurd rfl hne
  | cons hd rest ih =>
    intro channels usages fc _ hul hcl
    obtain ⟨chDuty, env⟩ := hd
    by_cases hrest : rest = []
    · subst hrest
      have hfc : channels.length = fc + 1 := by simpa using hcl
      by_cases hp : 0 < env.polls
      · have : txSlotLoop channels [(chDuty, env)] usages fc = .crash := by
          simp only [txSlotLoop]
          rw [if_pos ⟨hp, by omega⟩]
        exact ⟨fun us => by rw [this]; simp, fun _ => this⟩
      · have hget : usages.get? (fc + 1) = none := by
          rw [List.get?_eq_none]
          omega
        have : txSlotLoop channels [(chDuty, env)] usages fc = .crash := by
          simp only [txSlotLoop]
          rw [if_neg (by push_neg; intro h; exact absurd h hp)]
          simp only [slotLedger, hget]
        exact ⟨fun us => by rw [this]; simp, fun _ => this⟩
    · have hlt : fc + 1 < channels.length := by
        have : rest.length ≠ 0 := fun h => hrest (List.length_eq_zero.mp h)
        simp only [List.length_cons] at hcl
        omega
      have hcond : ¬(0 < env.polls ∧ channels.length ≤ fc + 1) := by
        push_neg
        intro _
        omega
      cases hget : usages.get? (fc + 1) with
      | none =>
        rw [List.get?_eq_none] at hget
        omega
      | some cc =>
        obtain ⟨clast, consumed⟩ := cc
        have hstep : slotLedger chDuty env usages (fc + 1) =
            some (usages.set (fc + 1)
              (env.start, if chDuty < env.fin - clast then 400000 else consumed + 400000)) := by
          simp only [slotLedger, hget]
        by_cases hsync : 600 < (env.fin - env.start) / 1000
        · have : txSlotLoop channels ((chDuty, env) :: rest) usages fc = .outOfSync := by
            simp only [txSlotLoop]
            rw [if_neg hcond, hstep]
            simp only [if_pos hsync]
          refine ⟨fun us => by rw [this]; simp, fun htimely => ?_⟩
          have h2 : (env.fin - env.start) / 1000 ≤ 600 :=
            htimely (chDuty, env) (List.mem_cons_self _ _)
          omega
        · have hrw : txSlotLoop channels ((chDuty, env) :: rest) usages fc =
              txSlotLoop channels rest
                (usages.set (fc + 1)
                  (env.start, if chDuty < env.fin - clast then 400000 else consumed + 400000))
                (fc + 1) := by
            simp only [txSlotLoop]
            rw [if_neg hcond, hstep]
            simp only [if_neg hsync]
          have hih := ih channels
            (usages.set (fc + 1)
              (env.start, if chDuty < env.fin - clast then 400000 else consumed + 400000))
            (fc + 1) hrest (by simp [hul]) (by simp only [List.length_cons] at hcl; omega)
          refine ⟨fun us => by rw [hrw]; exact hih.1 us, fun htimely => ?_⟩
          rw [hrw]
          exact hih.2 fun p hp => htimely p (List.mem_cons_of_mem _ hp)

/-- C9: for every transmission whose slot count equals the number of
configured channels, the per-slot bookkeeping of the last slot indexes the
channel list (when the completion poll runs) and the channel-usage vector at
the out-of-bounds position `k`, because the cursor is incremented before the
accesses; so `transmit` cannot complete normally (it either panics, or — if
an earlier slot blew the 600 ms budget — returns `OutOfSync` without reaching
the last slot; with every slot within budget it always panics). -/
theorem c9_transmit_slot_count_equals_channels_panics (channels : List Nat)
    (envs : List SlotEnv) (usages : List (Nat × Nat)) (hne : channels ≠ [])
    (hul : usages.length = channels.length) (henv : channels.length ≤ envs.length) :
    (∀ us, transmitSlots channels envs usages channels.length ≠ .ok us) ∧
    ((∀ e ∈ envs, (e.fin - e.start) / 1000 ≤ 600) →
      transmitSlots channels envs usages channels.length = .crash) := by
  have htake : channels.take channels.length = channels := List.take_length channels
  have hzlen : ((channels.take channels.length).zip envs).length = channels.length := by
    rw [htake, List.length_zip]
    omega
  have hne2 : (channels.take channels.length).zip envs ≠ [] := by
    intro h
    rw [h] at hzlen
    simp at hzlen
    exact hne (List.length_eq_zero.mp hzlen.symm)
  have h := txSlotLoop_overrun ((channels.take channels.length).zip envs) channels usages 0
    hne2 hul (by omega)
  refine ⟨h.1, fun htimely => h.2 fun p hp => ?_⟩
  exact htimely p.2 (List.of_mem_zip hp).2

/-- Witness for C9: one channel, a one-slot frame, a timely transmission. -/
theorem c9_transmit_slot_count_witness :
    (∀ us, transmitSlots [100] [⟨1000, 2000, 0⟩] [(0, 5)] 1 ≠ .ok us) ∧
    ((∀ e ∈ [(⟨1000, 2000, 0⟩ : SlotEnv)], (e.fin - e.start) / 1000 ≤ 600) →
      transmitSlots [100] [⟨1000, 2000, 0⟩] [(0, 5)] 1 = .crash) :=
  c9_transmit_slot_count_equals_channels_panics [100] [⟨1000, 2000, 0⟩] [(0, 5)]
    (by decide) (by decide) (by decide)

/-- C6: after the slot sent on channel 0 of a two-channel configuration
completes, the ledger entry updated is entry 1, not entry 0: the used
channel's entry keeps its old last-use instant and consumed time, while the
unused channel's entry receives the slot's start instant and the 400 ms
on-air charge.  This contradicts the spec, which requires the entry of the
channel the slot was sent on to be the one updated. -/
theorem c6_ledger_updates_wrong_entry :
    transmitSlots [100, 100] [⟨1000, 2000, 0⟩] [(0, 5), (0, 7)] 1 =
        .ok [(0, 5), (1000, 400000)] ∧
      [(0, 5), (1000, 400000)].get? 0 = some ((0 : Nat), (5 : Nat)) ∧
      [(0, 5), (1000, 400000)].get? 1 ≠ some ((0 : Nat), (7 : Nat)) := by
  refine ⟨by decide, by decide, by decide⟩

/-! Concrete frames and pending entries for the acknowledgment-timeout
claims. -/

/-- History frame acknowledged by nonce 11 (recipient 2). -/
def c7FrameA : RadioFrameWithHeaders :=
  { headers := { recNFrames := 0x11, recipients := .direct 2, payloads := 1, sender := 1,
                 nonce := 11 },
    acknowledgements := [], payloads := [[10]] }

/-- History frame acknowledged by nonce 12 (recipient 3). -/
def c7FrameB : RadioFrameWithHeaders :=
  { headers := { recNFrames := 0x11, recipients := .direct 3, payloads := 1, sender := 1,
                 nonce := 12 },
    acknowledgements := [], payloads := [[20]] }

/-- History frame acknowledged by nonce 13 (recipient 4). -/
def c7FrameC : RadioFrameWithHeaders :=
  { headers := { recNFrames := 0x11, recipients := .direct 4, payloads := 1, sender := 1,
                 nonce := 13 },
    acknowledgements := [], payloads := [[30]] }

/-- Three pending entries recorded at seconds 0, 5 and 10. -/
def c7Pending : List PendingAck :=
  [⟨2, 11, 0, false⟩, ⟨3, 12, 5, false⟩, ⟨4, 13, 10, false⟩]

/-- C7 counterexample: the entry recorded at t = 5 (deadline 65) is still
pending when `check_reception` runs at t = 66 — the first invocation after
its deadline — yet that invocation fires nothing for it: the earlier
invocation at t = 62 re-queued the not-yet-expired entry behind a younger
one, and the drain loop stops at the first non-expired entry it pops. -/
theorem c7_first_invocation_after_deadline_misses :
    (drainExpired 62 true c7Pending [c7FrameA, c7FrameB, c7FrameC]).2.2.1 =
        [⟨2, 11, 0, false⟩] ∧
      (⟨3, 12, 5, false⟩ : PendingAck) ∈
        (drainExpired 62 true c7Pending [c7FrameA, c7FrameB, c7FrameC]).1 ∧
      (5 : Nat) + 60 ≤ 66 ∧
      (drainExpired 66 true (drainExpired 62 true c7Pending [c7FrameA, c7FrameB, c7FrameC]).1
          (drainExpired 62 true c7Pending [c7FrameA, c7FrameB, c7FrameC]).2.1).2.2.1 = [] ∧
      (drainExpired 66 true (drainExpired 62 true c7Pending [c7FrameA, c7FrameB, c7FrameC]).1
          (drainExpired 62 true c7Pending [c7FrameA, c7FrameB, c7FrameC]).2.1).2.2.2 = [] := by
  refine ⟨by decide, by decide, by decide, by decide, by decide⟩

/-- C7 (amended): a pending entry never fires before its recording instant
plus 60 s; and when the pending ring is in nondecreasing order of recording
instant (as it is when entries have only been pushed, never rotated), every
entry past its deadline fires on the current invocation.  The rotation of a
non-expired front entry to the back can break that order, deferring an
expired entry past an invocation (see the counterexample), so firing on the
first invocation after the deadline is only guaranteed in the sorted case. -/
theorem c7_drain_timing (now : Nat) (c : Bool) (pending : List PendingAck)
    (history : List RadioFrameWithHeaders) :
    (∀ e ∈ (drainExpired now c pending history).2.2.1, e.instant + 60 ≤ now) ∧
      (pending.Pairwise (fun a b => a.instant ≤ b.instant) →
        ∀ e ∈ pending, e.instant + 60 ≤ now →
          e ∈ (drainExpired now c pending history).2.2.1) := by
  induction pending generalizing history with
  | nil =>
    refine ⟨fun e he => absurd he (by simp [drainExpired]), fun _ e he => absurd he (by simp)⟩
  | cons e rest ih =>
    by_cases hexp : now - e.instant < 60
    · have hd : (drainExpired now c (e :: rest) history).2.2.1 = [] := by
        simp only [drainExpired, if_pos hexp]
      refine ⟨fun x hx => absurd hx (by simp [hd]), fun hsorted x hx hxe => ?_⟩
      exfalso
      rcases List.mem_cons.mp hx with hx1 | hx2
      · subst hx1
        omega
      · have := (List.pairwise_cons.mp hsorted).1 x hx2
        omega
    · have hd : (drainExpired now c (e :: rest) history).2.2.1 =
          e :: (drainExpired now c rest
            (if c then
              match historyFind history e.nonce with
              | some (f, hrest) => (hrest ++ [f], failNotifs f e.addr e.nonce)
              | none => ([], [])
             else (history, [])).1).2.2.1 := by
        simp only [drainExpired, if_neg hexp]
      rw [hd]
      constructor
      · intro x hx
        rcases List.mem_cons.mp hx with hx1 | hx2
        · subst hx1
          omega
        · exact (ih _).1 x hx2
      · intro hsorted x hx hxe
        rcases List.mem_cons.mp hx with hx1 | hx2
        · subst hx1
          exact List.mem_cons_self _ _
        · exact List.mem_cons_of_mem _
            ((ih _).2 (List.pairwise_cons.mp hsorted).2 x hx2 hxe)

/-- C4: with two registered neighbors whose required powers are 4 and 10,
`get_min_tx_power` should return the maximum 10 gated by the second address
only; the implementation returns the default power 2 with both addresses,
because its `tx_power` accumulator starts as `None` and the only branch that
assigns it is guarded by `tp > tx_power.unwrap()`, which is never evaluated
while it is `None`. -/
theorem c4_get_min_tx_power_returns_default :
    getTxPower c4State 1 = some 4 ∧ getTxPower c4State 2 = some 10 ∧
      getMinTxPower c4State [1, 2] = some (2, [1, 2]) ∧
      (some ((2 : Int), [1, 2]) ≠ some ((10 : Int), ([2] : List Nat))) := by
  refine ⟨by decide, by decide, by decide, by decide⟩

/-- C5: one full beacon round with noiseless samples from the linear ground
truth `RSSI(TP) = 2.5 TP − 45` (the spec's scenario, samples
`[(10, −20), (8, −25), (6, −30), (4, −35), (2, −40)]`).  The samples are
stored at the right indices and the neighbor reaches Runtime, but the
recomputed control model is `(a, b) = (−55, 0)` — the source's denominator
adds `(Σ tp)²` instead of subtracting it and the slope/intercept numerators
are swapped — so the predicted RSSI at TP = 10 is −550, not the ground-truth
−20: the fit is not the ordinary least-squares fit. -/
theorem c5_beacon_refit_diverges :
    (c5Final.map fun st => findNeighbor st 5) =
        some (some { nodeAddress := 5, statusRuntime := true, cmA := -55, cmB := 0,
                     rssi := [-20, -25, -30, -35, -40] }) ∧
      (-55 : Int) * 10 + 0 = -550 ∧ ((-550 : Int) ≠ -20) := by
  refine ⟨by decide, by decide, by decide⟩

/-- Equality of `queue` results is decidable (for the concrete witnesses). -/
instance : DecidableEq (Except QueueErr Unit) := fun x y =>
  match x, y with
  | .ok (), .ok () => isTrue rfl
  | .error a, .error b =>
    if h : a = b then isTrue (by rw [h])
    else isFalse (by intro hc; cases hc; exact h rfl)
  | .ok _, .error _ => isFalse (by intro hc; cases hc)
  | .error _, .ok _ => isFalse (by intro hc; cases hc)

set_option maxRecDepth 16000 in
/-- C10 counterexample: a Unique destination without acknowledgment whose
payload overflows the frame is rejected with `QueueFull(TooBigFrame)` and
the recipient is NOT registered with the ATPC (the driver state, neighbor
list included, is exactly the initial one) — the claim asserts registration
for every Unique destination. -/
theorem c10_unique_without_ack_unregistered :
    (queueOp c10State 1 99 (.unique 2) (List.replicate 1248 0) false).1 =
        .error (.queueFull .tooBigFrame) ∧
      (queueOp c10State 1 99 (.unique 2) (List.replicate 1248 0) false).2 = c10State ∧
      2 ∉ (queueOp c10State 1 99 (.unique 2) (List.replicate 1248 0) false).2.atpcNeighbors := by
  refine ⟨by decide, by decide, by decide⟩

/-- Membership in the neighbor list survives a registration. -/
theorem mem_registerNeighbor (ns : List Nat) (b a : Nat) (ha : a ∈ ns) :
    a ∈ registerNeighbor ns b := by
  unfold registerNeighbor
  split
  · exact ha
  · exact List.mem_append_left _ ha

/-- Membership in the neighbor list survives any sequence of registrations. -/
theorem mem_foldl_registerNeighbor (addrs : List Nat) :
    ∀ (ns : List Nat) (a : Nat), a ∈ ns → a ∈ addrs.foldl registerNeighbor ns := by
  induction addrs with
  | nil => intro ns a ha; exact ha
  | cons b rest ih =>
    intro ns a ha
    exact ih (registerNeighbor ns b) a (mem_registerNeighbor ns b a ha)

/-- C10 (amended): whenever `queue` returns an error, the transmit payload
buffer, the outgoing acknowledgment buffer, and the stashed pending frame
are exactly as before the call; the ATPC neighbor list is exactly the
original list extended by the registrations the destination performs before
any validation — every recipient for a Unique destination WITH
acknowledgment requested and for a Group destination (regardless of
acknowledgment), and nothing for Global or for Unique without
acknowledgment — and no previously registered neighbor is removed. -/
theorem c10_queue_error_preserves_state (st : DriverState) (sender nonce : Nat)
    (dest : LoRaDestination) (payload : List Nat) (ack : Bool) (e : QueueErr)
    (herr : (queueOp st sender nonce dest payload ack).1 = .error e) :
    (queueOp st sender nonce dest payload ack).2.txBuffer = st.txBuffer ∧
      (queueOp st sender nonce dest payload ack).2.txBufAcks = st.txBufAcks ∧
      (queueOp st sender nonce dest payload ack).2.txFrame = st.txFrame ∧
      (queueOp st sender nonce dest payload ack).2.atpcNeighbors =
        (queueRecipients st.atpcNeighbors dest ack).2 ∧
      ∀ a ∈ st.atpcNeighbors, a ∈ (queueOp st sender nonce dest payload ack).2.atpcNeighbors := by
  have hmono : ∀ a ∈ st.atpcNeighbors, a ∈ (queueRecipients st.atpcNeighbors dest ack).2 := by
    intro a ha
    cases dest with
    | global => simpa [queueRecipients] using ha
    | unique addr =>
      by_cases hack : ack
      · simpa [queueRecipients, hack] using mem_registerNeighbor st.atpcNeighbors addr a ha
      · simpa [queueRecipients, hack] using ha
    | group addrs => simpa [queueRecipients] using mem_foldl_registerNeighbor addrs _ a ha
  unfold queueOp at herr ⊢
  by_cases h48 : 48 < (queueRecipients st.atpcNeighbors dest ack).1.length
  · simp only [if_pos h48]
    exact ⟨trivial, trivial, trivial, trivial, hmono⟩
  · simp only [if_neg h48] at herr ⊢
    revert herr
    cases hbf : buildFrame sender nonce
        (st.txBuffer ++ [⟨(queueRecipients st.atpcNeighbors dest ack).1, payload⟩])
        st.txBufAcks with
    | ok f => intro herr; cases herr
    | error e2 => intro _; cases e2 <;> exact ⟨rfl, rfl, rfl, rfl, hmono⟩

set_option maxRecDepth 16000 in
/-- Witness for C10 at the concrete failing queue call (Unique with
acknowledgment, oversized payload). -/
theorem c10_queue_error_preserves_state_witness :
    (queueOp c10State 1 99 (.unique 2) (List.replicate 1248 0) true).2.txBuffer =
        c10State.txBuffer ∧
      (queueOp c10State 1 99 (.unique 2) (List.replicate 1248 0) true).2.txBufAcks =
        c10State.txBufAcks ∧
      (queueOp c10State 1 99 (.unique 2) (List.replicate 1248 0) true).2.txFrame =
        c10State.txFrame ∧
      (queueOp c10State 1 99 (.unique 2) (List.replicate 1248 0) true).2.atpcNeighbors =
        (queueRecipients c10State.atpcNeighbors (.unique 2) true).2 ∧
      ∀ a ∈ c10State.atpcNeighbors,
        a ∈ (queueOp c10State 1 99 (.unique 2) (List.replicate 1248 0) true).2.atpcNeighbors :=
  c10_queue_error_preserves_state c10State 1 99 (.unique 2) (List.replicate 1248 0) true
    (.queueFull .tooBigFrame) (by decide)

end RadioTipe
